import Mathlib

/-!
Shallow embedding of the authentication/authorization and issue-key core of
the `groundwork` project/issue-tracking backend.

Sources embedded:
  * `src/groundwork/auth/utils.py`        — credential hashing, JWT codec
  * `src/groundwork/auth/providers/local.py` — `LocalAuthProvider.authenticate`
  * `src/groundwork/auth/services.py`     — `AuthService` (login / logout /
    refresh / password reset)
  * `src/groundwork/auth/models.py`       — `Role.has_permission`, ORM rows
  * `src/groundwork/issues/services.py`   — `IssueService._generate_issue_key`
  * `src/groundwork/core/config.py`       — `Settings`

Modelling conventions:
  * Timestamps (`datetime.now(UTC)` values) are `Int` seconds and are passed
    explicitly to every operation that reads the clock.
  * Argon2 hashing (`passlib` with a random salt) is modelled as an ideal
    hash: a `Digest` records the exact preimage together with the salt drawn
    at hashing time, and verification succeeds exactly on the preimage.
    This is the standard idealisation of a collision-free, one-way hash.
  * A JWT produced by `jose.jwt.encode` is modelled as its claim set together
    with the signing key; `decode` with a key succeeds exactly when the keys
    agree (ideal MAC) and the `exp` claim has not passed (python-jose treats
    a token as expired when `exp < now`).
  * The SQLAlchemy session is modelled as an explicit `DB` value threaded
    through the service operations; a query is a pure scan of the row lists.
  * Randomness (`secrets.token_urlsafe`, argon2 salts, fresh row ids) is
    passed in as explicit parameters.
  * A Python statement that raises is modelled with `Except`: notably,
    `settings.refresh_token_expire_days` is an attribute access on a
    pydantic `Settings` object that does not declare that field
    (`core/config.py` declares only `access_token_expire_minutes`), so the
    access raises `AttributeError`; it is modelled as a lookup returning
    `none`.
-/

/-- An Argon2 digest as stored by `passlib` (`auth/utils.py`): modelled as the
preimage plus the salt drawn when hashing.  `α` is `String` for passwords and
reset validators, and `Jwt` for the hashed refresh-token material (the code
feeds the JWT string to the same `hash_password` primitive). -/
structure Digest (α : Type) where
  preimage : α
  salt : Nat
deriving DecidableEq, Repr

/-- Model of `hash_password` (`auth/utils.py` line 18): Argon2 hash with a fresh random
salt; the salt is an explicit parameter here. -/
def hash_password {α : Type} (password : α) (salt : Nat) : Digest α :=
  ⟨password, salt⟩

/-- Model of `verify_password` (`auth/utils.py` line 24): verification against a digest
succeeds exactly when the offered secret is the digest's preimage. -/
def verify_password {α : Type} [DecidableEq α] (plain : α) (hashed : Digest α) : Bool :=
  decide (hashed.preimage = plain)

/-- The JWT `type` claim: `"access"` or `"refresh"`. -/
inductive TokenType where
  | access
  | refresh
deriving DecidableEq, Repr

/-- The claim set carried by a token (`auth/utils.py`): subject (user id as a
string), issued-at, expiry, and the type tag. -/
structure TokenPayload where
  sub : String
  iat : Int
  exp : Int
  type : TokenType
deriving DecidableEq, Repr

/-- A signed token as produced by `jose.jwt.encode(payload, key, HS256)`:
the claims plus the signing key (ideal-MAC model: a signature verifies under
a key iff the token was signed with that same key). -/
structure Jwt where
  payload : TokenPayload
  key : String
deriving DecidableEq, Repr

/-- Model of `jose.jwt.encode`: sign a claim set with a key. -/
def jwt_encode (payload : TokenPayload) (key : String) : Jwt :=
  ⟨payload, key⟩

/-- Model of `Settings` (`core/config.py` lines 9–34), security-relevant fields.
Note: the class declares `access_token_expire_minutes` (default 30) but no
refresh-token TTL field. -/
structure Settings where
  secret_key : String
  access_token_expire_minutes : Int := 30
deriving DecidableEq, Repr

/-- The attribute access `settings.refresh_token_expire_days` performed by
`auth/utils.py` line 49 and `auth/services.py` line 50.  `Settings`
(`core/config.py`) declares no such field, so on a pydantic model the lookup
raises `AttributeError`; modelled as a lookup that always fails. -/
def Settings.refresh_token_expire_days (_ : Settings) : Option Int :=
  none

/-- Model of `create_access_token` (`auth/utils.py` lines 30–42).  `expires_delta` is
the optional override (in seconds); Python's `expires_delta or timedelta(...)`
falls back to the configured minutes when the argument is absent or a zero
delta (zero `timedelta` is falsy). -/
def create_access_token (s : Settings) (user_id : String) (now : Int)
    (expires_delta : Option Int) : Jwt :=
  let expire :=
    match expires_delta with
    | some d => if d = 0 then now + 60 * s.access_token_expire_minutes else now + d
    | none => now + 60 * s.access_token_expire_minutes
  jwt_encode ⟨user_id, now, expire, TokenType.access⟩ s.secret_key

/-- Model of `create_refresh_token` (`auth/utils.py` lines 45–57).  When no (nonzero)
`expires_delta` is supplied, the code evaluates
`timedelta(days=settings.refresh_token_expire_days)`, an attribute access
that fails because `Settings` has no such field: modelled as `Except.error`. -/
def create_refresh_token (s : Settings) (user_id : String) (now : Int)
    (expires_delta : Option Int) : Except String Jwt :=
  let fromSettings : Except String Jwt :=
    match s.refresh_token_expire_days with
    | some d =>
        Except.ok (jwt_encode ⟨user_id, now, now + 86400 * d, TokenType.refresh⟩ s.secret_key)
    | none => Except.error "AttributeError: refresh_token_expire_days"
  match expires_delta with
  | some d =>
      if d = 0 then fromSettings
      else Except.ok (jwt_encode ⟨user_id, now, now + d, TokenType.refresh⟩ s.secret_key)
  | none => fromSettings

/-- Model of `decode_token` (`auth/utils.py` lines 60–67): `jose.jwt.decode` verifies
the signature, then the `exp` claim (expired when `exp < now`); any
`JWTError` is caught and mapped to `None`. -/
def decode_token (token : Jwt) (secret_key : String) (now : Int) : Option TokenPayload :=
  if token.key = secret_key then
    if token.payload.exp < now then none
    else some token.payload
  else none

/-- The decode-then-check-type pattern used at every token call site
(`auth/services.py` lines 67–68 for logout and 100–101 for refresh):
`decode_token` followed by `payload.get("type") != expected`; every failure
collapses to the same `none`. -/
def decode_expecting (token : Jwt) (secret_key : String) (expected : TokenType)
    (now : Int) : Option TokenPayload :=
  match decode_token token secret_key now with
  | none => none
  | some payload => if payload.type = expected then some payload else none

/-- A `users` row (`auth/models.py` class `User`), restricted to the fields
the embedded operations read or write.  `id` is the UUID as a string. -/
structure UserRow where
  id : String
  email : String
  hashed_password : Digest String
  is_active : Bool
  last_login_at : Option Int
deriving DecidableEq, Repr

/-- A `refresh_tokens` row (`auth/models.py` class `RefreshToken`). -/
structure RefreshTokenRow where
  id : String
  user_id : String
  token_hash : Digest Jwt
  expires_at : Int
  revoked_at : Option Int
deriving DecidableEq, Repr

/-- A `password_reset_tokens` row (`auth/models.py` class
`PasswordResetToken`). -/
structure ResetTokenRow where
  id : String
  user_id : String
  token_selector : String
  token_hash : Digest String
  expires_at : Int
  used_at : Option Int
deriving DecidableEq, Repr

/-- The relational store as seen by `AuthService`: the three auth tables. -/
structure DB where
  users : List UserRow
  refresh_tokens : List RefreshTokenRow
  reset_tokens : List ResetTokenRow
deriving DecidableEq, Repr

/-- The `users.email` UNIQUE constraint (`auth/models.py` line 80): at most
one row per email. -/
def EmailsUnique (db : DB) : Prop :=
  ∀ a ∈ db.users, ∀ b ∈ db.users, a.email = b.email → a = b

/-- The `password_reset_tokens.token_selector` UNIQUE constraint
(`auth/models.py` line 165): at most one row per selector. -/
def SelectorsUnique (db : DB) : Prop :=
  ∀ a ∈ db.reset_tokens, ∀ b ∈ db.reset_tokens, a.token_selector = b.token_selector → a = b

/-- Model of `LocalAuthProvider.authenticate` (`providers/local.py` lines 20–36).
The second component counts `verify_password` invocations, recording the
dummy verification performed when no user matches (line 27); the caller-visible
result is the first component. -/
def authenticate (db : DB) (email password : String) : Option UserRow × Nat :=
  match db.users.find? (fun u => decide (u.email = email)) with
  | none =>
      -- Perform dummy verification to prevent timing attacks
      (none, 1)
  | some user =>
      if !user.is_active then (none, 0)
      else if !verify_password password user.hashed_password then (none, 1)
      else (some user, 1)

/-- Result of a successful `AuthService.login` (`auth/services.py` lines
58–63): both tokens, the CSRF token, and the authenticated user. -/
structure LoginResult where
  access_token : Jwt
  refresh_token : Jwt
  csrf_token : String
  user : UserRow
deriving DecidableEq, Repr

/-- Model of `AuthService.login` (`auth/services.py` lines 31–63).  Explicit inputs for
the clock (`now`), the argon2 salt used for the stored refresh-token hash, the
fresh row id, and the generated CSRF token.  `Except.error` models an uncaught
Python exception: the success path evaluates
`settings.refresh_token_expire_days`, which raises `AttributeError`. -/
def login (s : Settings) (db : DB) (email password : String) (now : Int)
    (salt : Nat) (row_id csrf : String) :
    Except String (Option (LoginResult × DB)) :=
  match (authenticate db email password).fst with
  | none => Except.ok none
  | some user =>
      -- Update last login
      let users' := db.users.map fun u =>
        if u.id = user.id then { u with last_login_at := some now } else u
      -- Generate tokens
      let access_token := create_access_token s user.id now none
      match create_refresh_token s user.id now none with
      | Except.error e => Except.error e
      | Except.ok refresh_token =>
          -- Store refresh token hash (expiry read from settings again)
          match s.refresh_token_expire_days with
          | none => Except.error "AttributeError: refresh_token_expire_days"
          | some d =>
              let token_record : RefreshTokenRow :=
                { id := row_id
                  user_id := user.id
                  token_hash := hash_password refresh_token salt
                  expires_at := now + 86400 * d
                  revoked_at := none }
              let db' : DB :=
                { db with
                  users := users'
                  refresh_tokens := db.refresh_tokens ++ [token_record] }
              Except.ok (some
                ({ access_token := access_token
                   refresh_token := refresh_token
                   csrf_token := csrf
                   user := { user with last_login_at := some now } }, db'))

/-- Model of `AuthService.logout` (`auth/services.py` lines 65–96): decode as refresh,
scan the user's non-revoked rows for one whose stored hash verifies against
the presented token, and set `revoked_at` on that row only. -/
def logout (s : Settings) (db : DB) (token : Jwt) (now : Int) : Bool × DB :=
  match decode_expecting token s.secret_key TokenType.refresh now with
  | none => (false, db)
  | some payload =>
      if payload.sub = "" then (false, db)
      else
        let tokens := db.refresh_tokens.filter fun rt =>
          decide (rt.user_id = payload.sub) && rt.revoked_at.isNone
        match tokens.find? (fun rt => verify_password token rt.token_hash) with
        | none => (false, db)
        | some valid_token =>
            let refreshes' := db.refresh_tokens.map fun rt =>
              if rt.id = valid_token.id then { rt with revoked_at := some now } else rt
            (true, { db with refresh_tokens := refreshes' })

/-- Result of a successful `AuthService.refresh_access_token`
(`auth/services.py` lines 139–143). -/
structure RefreshResult where
  access_token : Jwt
  csrf_token : String
  user : UserRow
deriving DecidableEq, Repr

/-- Model of `AuthService.refresh_access_token` (`auth/services.py` lines 98–143):
decode as refresh; scan the subject's non-revoked, non-expired rows for a
hash match; re-check the user exists and is active; mint a new access token.
The refresh token is not rotated and the store is not modified. -/
def refresh_access_token (s : Settings) (db : DB) (token : Jwt) (now : Int)
    (csrf : String) : Option RefreshResult :=
  match decode_expecting token s.secret_key TokenType.refresh now with
  | none => none
  | some payload =>
      if payload.sub = "" then none
      else
        let tokens := db.refresh_tokens.filter fun rt =>
          decide (rt.user_id = payload.sub) && rt.revoked_at.isNone &&
            decide (now < rt.expires_at)
        match tokens.find? (fun rt => verify_password token rt.token_hash) with
        | none => none
        | some _ =>
            match db.users.find? (fun u => decide (u.id = payload.sub)) with
            | none => none
            | some user =>
                if !user.is_active then none
                else some
                  { access_token := create_access_token s user.id now none
                    csrf_token := csrf
                    user := user }

/-- Split a character list at the first `'.'`: the pieces before and after
it, or `none` when no dot occurs. -/
def splitFirstDot : List Char → Option (List Char × List Char)
  | [] => none
  | c :: rest =>
      if c = '.' then some ([], rest)
      else
        match splitFirstDot rest with
        | none => none
        | some (a, b) => some (c :: a, b)

/-- The combined-token parse at the top of `AuthService.confirm_password_reset`
(`auth/services.py` lines 183–191): reject when no `"."` occurs in the token,
otherwise `token.split(".", 1)` — the selector is everything before the first
dot, the validator everything after it. -/
def parse_reset_token (token : String) : Option (String × String) :=
  match splitFirstDot token.toList with
  | none => none
  | some (a, b) => some (⟨a⟩, ⟨b⟩)

/-- Model of `AuthService.request_password_reset` (`auth/services.py` lines 145–174):
look up an active user by email, persist the cleartext selector and the
hashed validator with a one-hour expiry, and return `selector.validator`.
The random selector and validator and the argon2 salt are explicit inputs. -/
def request_password_reset (db : DB) (email : String) (now : Int)
    (selector validator : String) (salt : Nat) (row_id : String) :
    Option String × DB :=
  match db.users.find? (fun u => decide (u.email = email)) with
  | none => (none, db)
  | some user =>
      if !user.is_active then (none, db)
      else
        let token_record : ResetTokenRow :=
          { id := row_id
            user_id := user.id
            token_selector := selector
            token_hash := hash_password validator salt
            expires_at := now + 3600
            used_at := none }
        (some (selector ++ "." ++ validator),
          { db with reset_tokens := db.reset_tokens ++ [token_record] })

/-- Model of `AuthService.confirm_password_reset` (`auth/services.py` lines 176–234):
parse the combined token; look up the unused, unexpired row by selector;
verify the validator against the stored hash; then update the user's
credential hash, mark the row used, and revoke every non-revoked refresh
token of that user.  All failure paths return `false` with the store
untouched.  `salt` is the argon2 salt for the new credential hash. -/
def confirm_password_reset (db : DB) (token new_password : String) (now : Int)
    (salt : Nat) : Bool × DB :=
  match parse_reset_token token with
  | none => (false, db)
  | some (selector, validator) =>
      match db.reset_tokens.find? (fun r =>
          decide (r.token_selector = selector) && r.used_at.isNone &&
            decide (now < r.expires_at)) with
      | none => (false, db)
      | some reset_token =>
          if !verify_password validator reset_token.token_hash then (false, db)
          else
            match db.users.find? (fun u => decide (u.id = reset_token.user_id)) with
            | none => (false, db)
            | some user =>
                let users' := db.users.map fun u =>
                  if u.id = user.id then
                    { u with hashed_password := hash_password new_password salt }
                  else u
                let resets' := db.reset_tokens.map fun r =>
                  if r.id = reset_token.id then { r with used_at := some now } else r
                let refreshes' := db.refresh_tokens.map fun rt =>
                  if rt.user_id = user.id && rt.revoked_at.isNone then
                    { rt with revoked_at := some now }
                  else rt
                (true,
                  { users := users'
                    refresh_tokens := refreshes'
                    reset_tokens := resets' })

/-- A `permissions` row (`auth/models.py` class `Permission`). -/
structure Permission where
  codename : String
  permDescription : String
deriving DecidableEq, Repr

/-- A `roles` row with its permission set (`auth/models.py` class `Role`). -/
structure Role where
  name : String
  is_system : Bool
  permissions : List Permission
deriving DecidableEq, Repr

/-- Model of `Role.has_permission` (`auth/models.py` lines 67–69):
`any(p.codename == codename for p in self.permissions)`. -/
def Role.has_permission (role : Role) (codename : String) : Bool :=
  role.permissions.any fun p => decide (p.codename = codename)

/-- A `projects` row, restricted to what `_generate_issue_key` reads. -/
structure ProjectRow where
  id : String
  key : String
deriving DecidableEq, Repr

/-- An `issues` row, restricted to what `_generate_issue_key` reads. -/
structure IssueRow where
  id : String
  project_id : String
  issue_number : Nat
deriving DecidableEq, Repr

/-- The store as seen by `IssueService._generate_issue_key`. -/
structure IssueDB where
  projects : List ProjectRow
  issues : List IssueRow
deriving DecidableEq, Repr

/-- The issue numbers already assigned to a project:
`select max(issue_number) where project_id == project_id` ranges over this
list. -/
def issueNumbersFor (db : IssueDB) (project_id : String) : List Nat :=
  (db.issues.filter fun i => decide (i.project_id = project_id)).map
    (fun i => i.issue_number)

/-- Model of `IssueService._generate_issue_key` (`issues/services.py` lines 481–504):
after locking the project row (`with_for_update`, serialisation — not
represented in this sequential model), compute
`coalesce(max(issue_number), 0) + 1` and format `f"{project.key}-{next}"`.
`scalar_one()` on a missing project raises: modelled as `none`. -/
def generate_issue_key (db : IssueDB) (project_id : String) :
    Option (String × Nat) :=
  match db.projects.find? (fun p => decide (p.id = project_id)) with
  | none => none
  | some project =>
      let max_number := (issueNumbersFor db project_id).foldl Nat.max 0
      let next_number := max_number + 1
      some (project.key ++ "-" ++ toString next_number, next_number)

/-! ### Concrete fixtures used by witnesses -/

/-- A concrete active user whose password is `pw0`. -/
def userW : UserRow :=
  ⟨"u1", "ann@example.com", hash_password "pw0" 0, true, none⟩

/-- A concrete refresh JWT for `userW` signed under secret `"k"`. -/
def jwtW : Jwt :=
  jwt_encode ⟨"u1", 0, 9999, TokenType.refresh⟩ "k"

/-- A concrete store: `userW`, one active refresh-token row hashing `jwtW`,
and one unused reset row with selector `SEL` and validator `VAL`. -/
def dbW : DB :=
  { users := [userW]
    refresh_tokens := [⟨"rt1", "u1", hash_password jwtW 1, 9999, none⟩]
    reset_tokens := [⟨"pr1", "u1", "SEL", hash_password "VAL" 2, 1000, none⟩] }

/-- The store after a successful password reset with token `SEL.VAL`. -/
def dbW2 : DB :=
  (confirm_password_reset dbW "SEL.VAL" "npw" 100 7).snd

/-- A store whose only refresh-token row (matching `jwtW`) is revoked. -/
def dbRevW : DB :=
  { users := [userW]
    refresh_tokens := [⟨"rt1", "u1", hash_password jwtW 1, 9999, some 5⟩]
    reset_tokens := [] }

/-- A concrete issue store: project `TEST` with issues numbered 1 and 2, and
an unrelated project's issue numbered 9. -/
def issueDbW : IssueDB :=
  { projects := [⟨"p1", "TEST"⟩]
    issues := [⟨"i1", "p1", 1⟩, ⟨"i2", "p1", 2⟩, ⟨"i9", "other", 9⟩] }

/-! ### Helper lemmas -/

lemma le_foldl_max (l : List Nat) (b : Nat) : b ≤ l.foldl Nat.max b := by
  induction l generalizing b with
  | nil => exact Nat.le_refl b
  | cons a l ih =>
      exact Nat.le_trans (Nat.le_max_left b a) (ih (Nat.max b a))

lemma mem_le_foldl_max (l : List Nat) (b : Nat) :
    ∀ a ∈ l, a ≤ l.foldl Nat.max b := by
  induction l generalizing b with
  | nil => intro a ha; cases ha
  | cons x l ih =>
      intro a ha
      rcases List.mem_cons.mp ha with rfl | hmem
      · exact Nat.le_trans (Nat.le_max_right b a) (le_foldl_max l (Nat.max b a))
      · exact ih (Nat.max b x) a hmem

lemma foldl_max_eq_or_mem (l : List Nat) (b : Nat) :
    l.foldl Nat.max b = b ∨ l.foldl Nat.max b ∈ l := by
  induction l generalizing b with
  | nil => exact Or.inl rfl
  | cons x l ih =>
      rcases ih (Nat.max b x) with h | h
      · rcases Nat.le_total b x with hbx | hxb
        · have hm : Nat.max b x = x := Nat.max_eq_right hbx
          rw [hm] at h
          exact Or.inr (by simp [List.foldl_cons, hm, h])
        · have hm : Nat.max b x = b := Nat.max_eq_left hxb
          rw [hm] at h
          exact Or.inl (by simp [List.foldl_cons, hm, h])
      · exact Or.inr (List.mem_cons_of_mem x h)

lemma decode_expecting_payload {token : Jwt} {k : String} {e : TokenType}
    {now : Int} {p : TokenPayload}
    (h : decode_expecting token k e now = some p) : p = token.payload := by
  unfold decode_expecting decode_token at h
  by_cases hk : token.key = k
  · by_cases he : token.payload.exp < now
    · simp [hk, he] at h
    · by_cases ht : token.payload.type = e
      · simp [hk, he, ht] at h
        exact h.symm
      · simp [hk, he, ht] at h
  · simp [hk] at h

lemma refresh_none_of_rows (s : Settings) (db : DB) (token : Jwt) (now : Int)
    (csrf : String)
    (h : ∀ rt ∈ db.refresh_tokens, verify_password token rt.token_hash = true →
      rt.user_id ≠ token.payload.sub ∨ rt.revoked_at.isSome = true ∨
        rt.expires_at ≤ now) :
    refresh_access_token s db token now csrf = none := by
  unfold refresh_access_token
  cases hdec : decode_expecting token s.secret_key TokenType.refresh now with
  | none => simp
  | some payload =>
      have hp := decode_expecting_payload hdec
      subst hp
      by_cases hsub : token.payload.sub = ""
      · simp [hsub]
      · have hfind : (db.refresh_tokens.filter fun rt =>
            decide (rt.user_id = token.payload.sub) && rt.revoked_at.isNone &&
              decide (now < rt.expires_at)).find?
            (fun rt => verify_password token rt.token_hash) = none := by
          apply List.find?_eq_none.mpr
          intro x hx
          obtain ⟨hxm, hpred⟩ := List.mem_filter.mp hx
          simp only [Bool.and_eq_true, decide_eq_true_eq] at hpred
          intro hv
          rcases h x hxm hv with h1 | h2 | h3
          · exact h1 hpred.1.1
          · rw [Option.isNone_iff_eq_none.mp hpred.1.2] at h2
            simp at h2
          · omega
        simp [hsub, hfind]

lemma refresh_none_of_user (s : Settings) (db : DB) (token : Jwt) (now : Int)
    (csrf : String)
    (h : ∀ u ∈ db.users, u.id = token.payload.sub → u.is_active = false) :
    refresh_access_token s db token now csrf = none := by
  unfold refresh_access_token
  cases hdec : decode_expecting token s.secret_key TokenType.refresh now with
  | none => simp
  | some payload =>
      have hp := decode_expecting_payload hdec
      subst hp
      by_cases hsub : token.payload.sub = ""
      · simp [hsub]
      · cases hfind : (db.refresh_tokens.filter fun rt =>
            decide (rt.user_id = token.payload.sub) && rt.revoked_at.isNone &&
              decide (now < rt.expires_at)).find?
            (fun rt => verify_password token rt.token_hash) with
        | none => simp [hsub, hfind]
        | some rt =>
            cases huf : db.users.find? (fun u => decide (u.id = token.payload.sub)) with
            | none => simp [hsub, hfind, huf]
            | some u =>
                have hum : u ∈ db.users := List.mem_of_find?_eq_some huf
                have hui : u.id = token.payload.sub := by
                  simpa using List.find?_some huf
                have hin : u.is_active = false := h u hum hui
                simp [hsub, hfind, huf, hin]

lemma confirm_success_inv {db : DB} {token new_password : String} {now : Int}
    {salt : Nat} {db' : DB}
    (h : confirm_password_reset db token new_password now salt = (true, db')) :
    ∃ sel val row user,
      parse_reset_token token = some (sel, val) ∧
      db.reset_tokens.find? (fun r =>
          decide (r.token_selector = sel) && r.used_at.isNone &&
            decide (now < r.expires_at)) = some row ∧
      verify_password val row.token_hash = true ∧
      row ∈ db.reset_tokens ∧ row.token_selector = sel ∧
      db.users.find? (fun u => decide (u.id = row.user_id)) = some user ∧
      user ∈ db.users ∧ user.id = row.user_id ∧
      db' = { users := db.users.map fun u =>
                if u.id = user.id then
                  { u with hashed_password := hash_password new_password salt }
                else u
              refresh_tokens := db.refresh_tokens.map fun rt =>
                if rt.user_id = user.id && rt.revoked_at.isNone then
                  { rt with revoked_at := some now }
                else rt
              reset_tokens := db.reset_tokens.map fun r =>
                if r.id = row.id then { r with used_at := some now } else r } := by
  unfold confirm_password_reset at h
  split at h
  · simp at h
  · next sel val heq =>
      split at h
      · simp at h
      · next row hrow =>
          split at h
          · simp at h
          · next hver =>
              split at h
              · simp at h
              · next user huser =>
                  have hrmem : row ∈ db.reset_tokens := List.mem_of_find?_eq_some hrow
                  have hrsel : row.token_selector = sel := by
                    have hx := List.find?_some hrow
                    simp only [Bool.and_eq_true, decide_eq_true_eq] at hx
                    exact hx.1.1
                  have humem : user ∈ db.users := List.mem_of_find?_eq_some huser
                  have huid : user.id = row.user_id := by
                    simpa using List.find?_some huser
                  have hv : verify_password val row.token_hash = true := by
                    simpa using hver
                  have hdb : db' = _ := ((Prod.mk.injEq _ _ _ _ ▸ h).2).symm
                  exact ⟨sel, val, row, user, heq, hrow, hv, hrmem, hrsel, huser,
                    humem, huid, hdb⟩

/-! ### Claim theorems -/

/-- Claim C9: `Role.has_permission` returns `true` exactly when the codename
is literally present in the role's permission set; in particular it returns
`false` (it is a total function, never raising) when the codename is absent
or the permission set is empty. -/
theorem claim_C9_has_permission_iff (role : Role) (codename : String) :
    role.has_permission codename = true ↔
      ∃ p ∈ role.permissions, p.codename = codename := by
  simp [Role.has_permission, List.any_eq_true]

/-- Claim C2: when the project row is found, `_generate_issue_key` returns the
number one greater than every existing issue number of that project — the
maximum plus one, hence `1` when the project has no issues — paired with the
human key `{projectKey}-{number}`. -/
theorem claim_C2_generate_issue_key (db : IssueDB) (project_id : String)
    (project : ProjectRow)
    (hfind : db.projects.find? (fun p => decide (p.id = project_id)) = some project) :
    ∃ n, generate_issue_key db project_id
        = some (project.key ++ "-" ++ toString n, n) ∧
      (issueNumbersFor db project_id = [] → n = 1) ∧
      (∀ m ∈ issueNumbersFor db project_id, m < n) ∧
      (issueNumbersFor db project_id ≠ [] → n - 1 ∈ issueNumbersFor db project_id) := by
  refine ⟨(issueNumbersFor db project_id).foldl Nat.max 0 + 1, ?_, ?_, ?_, ?_⟩
  · simp [generate_issue_key, hfind]
  · intro hempty
    simp [hempty]
  · intro m hm
    exact Nat.lt_succ_of_le (mem_le_foldl_max _ 0 m hm)
  · intro hne
    rcases foldl_max_eq_or_mem (issueNumbersFor db project_id) 0 with h0 | hmem
    · rcases List.exists_mem_of_ne_nil _ hne with ⟨a, ha⟩
      have hle : a ≤ 0 := h0 ▸ mem_le_foldl_max _ 0 a ha
      have : a = 0 := Nat.le_zero.mp hle
      simpa [h0, this] using ha
    · simpa using hmem

/-- Claim C2 witness: project `TEST` with existing issues numbered 1 and 2
gets key `TEST-3`, number 3 = max + 1. -/
theorem claim_C2_witness :
    generate_issue_key issueDbW "p1" = some ("TEST-3", 3) := by
  rcases claim_C2_generate_issue_key issueDbW "p1" ⟨"p1", "TEST"⟩ (by decide) with
    ⟨n, hgen, -, hlt, hmem⟩
  have h2 : 2 < n := hlt 2 (by decide)
  have hm : n - 1 ∈ issueNumbersFor issueDbW "p1" := hmem (by decide)
  have he : issueNumbersFor issueDbW "p1" = [1, 2] := by rfl
  rw [he] at hm
  simp only [List.mem_cons, List.mem_singleton, List.not_mem_nil, or_false] at hm
  have h3 : n = 3 := by omega
  rw [h3] at hgen
  simpa using hgen

/-- Claim C6: decoding an encoded claim set with the same signing secret
returns the original claims when evaluated before the expiry instant, and
the invalid result (`none`) when evaluated after the expiry instant. -/
theorem claim_C6_decode_encode (payload : TokenPayload) (secret : String) (now : Int) :
    (now < payload.exp →
      decode_token (jwt_encode payload secret) secret now = some payload) ∧
    (payload.exp < now →
      decode_token (jwt_encode payload secret) secret now = none) := by
  constructor
  · intro h
    simp [decode_token, jwt_encode]
    omega
  · intro h
    simp [decode_token, jwt_encode, h]

/-- Claim C6 witness: a concrete claim set decodes to itself at time 5
(before expiry 100) and to `none` at time 200 (after expiry). -/
theorem claim_C6_witness :
    decode_token (jwt_encode ⟨"u1", 0, 100, TokenType.access⟩ "k") "k" 5
        = some ⟨"u1", 0, 100, TokenType.access⟩ ∧
    decode_token (jwt_encode ⟨"u1", 0, 100, TokenType.access⟩ "k") "k" 200 = none :=
  ⟨(claim_C6_decode_encode ⟨"u1", 0, 100, TokenType.access⟩ "k" 5).1 (by decide),
   (claim_C6_decode_encode ⟨"u1", 0, 100, TokenType.access⟩ "k" 200).2 (by decide)⟩

/-- Claim C7: the decode-then-expect-type pipeline used at the call sites
rejects a wrong signature, an expired `exp` claim, and a type-tag mismatch,
always with the single generic invalid value `none` (it is a total function:
it never raises and otherwise returns exactly the token's claims). -/
theorem claim_C7_decode_generic (token : Jwt) (secret : String)
    (expected : TokenType) (now : Int) :
    (token.key ≠ secret → decode_expecting token secret expected now = none) ∧
    (token.payload.exp < now → decode_expecting token secret expected now = none) ∧
    (token.payload.type ≠ expected → decode_expecting token secret expected now = none) ∧
    (decode_expecting token secret expected now = none ∨
      decode_expecting token secret expected now = some token.payload) := by
  unfold decode_expecting decode_token
  by_cases hk : token.key = secret
  · by_cases he : token.payload.exp < now
    · simp [hk, he]
    · by_cases ht : token.payload.type = expected
      · simp [hk, he, ht]
      · simp [hk, he, ht]
  · simp [hk]

/-- Claim C7 witness: a token signed under key `"other"` is rejected when
checked against secret `"k"`. -/
theorem claim_C7_witness :
    decode_expecting (jwt_encode ⟨"u1", 0, 100, TokenType.refresh⟩ "other") "k"
        TokenType.refresh 5 = none :=
  (claim_C7_decode_generic (jwt_encode ⟨"u1", 0, 100, TokenType.refresh⟩ "other")
    "k" TokenType.refresh 5).1 (by decide)

/-- Claim C1 (code bug): whenever `LocalAuthProvider.authenticate` accepts the
credentials, `AuthService.login` does not mint tokens or persist a
`RefreshToken` row — it raises `AttributeError`, because the code reads
`settings.refresh_token_expire_days` and `Settings` (`core/config.py`)
declares no such field.  The spec's claimed ≈7-day configured refresh TTL
does not exist in the code. -/
theorem claim_C1_login_attribute_error (s : Settings) (db : DB)
    (email password : String) (now : Int) (salt : Nat) (row_id csrf : String)
    (user : UserRow)
    (hauth : (authenticate db email password).fst = some user) :
    login s db email password now salt row_id csrf
      = Except.error "AttributeError: refresh_token_expire_days" := by
  unfold login
  rw [hauth]
  rfl

/-- Claim C1 witness: a concrete valid login attempt (active user, correct
password) hits the `AttributeError`. -/
theorem claim_C1_witness :
    login ⟨"k", 30⟩ dbW "ann@example.com" "pw0" 100 7 "rt2" "csrf"
      = Except.error "AttributeError: refresh_token_expire_days" :=
  claim_C1_login_attribute_error ⟨"k", 30⟩ dbW "ann@example.com" "pw0" 100 7
    "rt2" "csrf" userW (by decide)

/-- Claim C8: `authenticate` returns the generic invalid result (`none`)
exactly when the user is absent, inactive, or fails password verification;
in the absent-user case it performs exactly one (dummy) hash verification. -/
theorem claim_C8_authenticate (db : DB) (email password : String)
    (huniq : EmailsUnique db) :
    ((authenticate db email password).fst = none ↔
      (∀ u ∈ db.users, u.email ≠ email) ∨
      (∃ u ∈ db.users, u.email = email ∧ u.is_active = false) ∨
      (∃ u ∈ db.users, u.email = email ∧ u.is_active = true ∧
        verify_password password u.hashed_password = false)) ∧
    ((∀ u ∈ db.users, u.email ≠ email) → (authenticate db email password).snd = 1) := by
  cases hfind : db.users.find? (fun u => decide (u.email = email)) with
  | none =>
      have hall : ∀ u ∈ db.users, u.email ≠ email := by
        intro u hu
        have hx := List.find?_eq_none.mp hfind u hu
        simpa using hx
      refine ⟨?_, ?_⟩
      · have hfst : (authenticate db email password).fst = none := by
          simp [authenticate, hfind]
        rw [hfst]
        exact ⟨fun _ => Or.inl hall, fun _ => rfl⟩
      · intro _
        simp [authenticate, hfind]
  | some user =>
      have hmem : user ∈ db.users := List.mem_of_find?_eq_some hfind
      have hemail : user.email = email := by
        simpa using List.find?_some hfind
      refine ⟨?_, ?_⟩
      · by_cases hact : user.is_active = true
        · by_cases hver : verify_password password user.hashed_password = true
          · have hfst : (authenticate db email password).fst = some user := by
              simp [authenticate, hfind, hact, hver]
            rw [hfst]
            constructor
            · intro hx
              exact absurd hx (by simp)
            · intro hdisj
              exfalso
              rcases hdisj with hall | ⟨v, hv, hve, hvact⟩ | ⟨v, hv, hve, -, hvver⟩
              · exact hall user hmem hemail
              · have : v = user := huniq v hv user hmem (hve.trans hemail.symm)
                rw [this] at hvact
                rw [hact] at hvact
                exact Bool.true_eq_false.mp hvact
              · have : v = user := huniq v hv user hmem (hve.trans hemail.symm)
                rw [this] at hvver
                rw [hver] at hvver
                exact Bool.true_eq_false.mp hvver
          · have hfst : (authenticate db email password).fst = none := by
              simp [authenticate, hfind, hact, hver]
            rw [hfst]
            refine ⟨fun _ => Or.inr (Or.inr ⟨user, hmem, hemail, hact, ?_⟩), fun _ => rfl⟩
            exact Bool.not_eq_true _ ▸ hver
        · have hfst : (authenticate db email password).fst = none := by
            simp [authenticate, hfind, hact]
          rw [hfst]
          refine ⟨fun _ => Or.inr (Or.inl ⟨user, hmem, hemail, ?_⟩), fun _ => rfl⟩
          exact Bool.not_eq_true _ ▸ hact
      · intro hall
        exact absurd hemail (hall user hmem)

/-- Claim C8 witness: in a store holding only `userW`, a login attempt for an
unknown email yields the generic invalid result. -/
theorem claim_C8_witness :
    (authenticate dbW "bob@example.com" "pw0").fst = none :=
  ((claim_C8_authenticate dbW "bob@example.com" "pw0"
      (by unfold EmailsUnique; decide)).1).mpr
    (Or.inl (by decide))

/-- Claim C10: every failing `confirm_password_reset` call — malformed token,
unknown/used/expired selector, validator hash mismatch, or missing user —
returns the store exactly as it was: no row is modified. -/
theorem claim_C10_no_mutation (db : DB) (token new_password : String)
    (now : Int) (salt : Nat) (db' : DB)
    (h : confirm_password_reset db token new_password now salt = (false, db')) :
    db' = db := by
  unfold confirm_password_reset at h
  split at h
  · exact (Prod.mk.injEq _ _ _ _ ▸ h).2.symm
  · split at h
    · exact (Prod.mk.injEq _ _ _ _ ▸ h).2.symm
    · split at h
      · exact (Prod.mk.injEq _ _ _ _ ▸ h).2.symm
      · split at h
        · exact (Prod.mk.injEq _ _ _ _ ▸ h).2.symm
        · simp at h

/-- Claim C10 witness: a malformed combined token (no dot) leaves the
concrete store unchanged. -/
theorem claim_C10_witness :
    (confirm_password_reset dbW "no-dot-token" "x" 0 0).snd = dbW :=
  claim_C10_no_mutation dbW "no-dot-token" "x" 0 0 _ (by decide)

/-- Claim C3: once a combined reset token has been successfully consumed,
a second `confirm_password_reset` with the identical token fails — at any
later clock value, in particular before the row's expiry (selector
uniqueness is the table's UNIQUE constraint). -/
theorem claim_C3_reset_consumed_once (db : DB) (token new_password : String)
    (now : Int) (salt : Nat) (db' : DB) (huniq : SelectorsUnique db)
    (h : confirm_password_reset db token new_password now salt = (true, db'))
    (new_password' : String) (now' : Int) (salt' : Nat) :
    (confirm_password_reset db' token new_password' now' salt').fst = false := by
  obtain ⟨sel, val, row, user, hp, hrow, hver, hrmem, hrsel, huser, humem, huid, hdb⟩ :=
    confirm_success_inv h
  have hfind2 : db'.reset_tokens.find? (fun r =>
      decide (r.token_selector = sel) && r.used_at.isNone &&
        decide (now' < r.expires_at)) = none := by
    apply List.find?_eq_none.mpr
    intro r' hr'
    rw [hdb] at hr'
    simp only [List.mem_map] at hr'
    obtain ⟨r, hrm, rfl⟩ := hr'
    by_cases hid : r.id = row.id
    · simp [hid]
    · simp only [hid, if_false]
      intro hpred
      simp only [Bool.and_eq_true, decide_eq_true_eq] at hpred
      have : r = row := huniq r hrm row hrmem (by rw [hpred.1.1, hrsel])
      exact hid (by rw [this])
  have hc2 : confirm_password_reset db' token new_password' now' salt' = (false, db') := by
    simp only [confirm_password_reset, hp, hfind2]
  rw [hc2]

/-- Claim C3 witness: consuming `SEL.VAL` once succeeds; replaying the same
combined token (here even before the row's expiry) fails. -/
theorem claim_C3_witness :
    (confirm_password_reset dbW2 "SEL.VAL" "other" 100 8).fst = false :=
  claim_C3_reset_consumed_once dbW "SEL.VAL" "npw" 100 7 dbW2
    (by unfold SelectorsUnique; decide) (by decide) "other" 100 8

/-- Claim C5: the refresh operation returns the generic denial (`none`) — and
so mints no access token — whenever every stored row matching the presented
secret is revoked, expired, or belongs to another subject, or the subject
user is missing or inactive. -/
theorem claim_C5_refresh_denied (s : Settings) (db : DB) (token : Jwt)
    (now : Int) (csrf : String)
    (h : (∀ rt ∈ db.refresh_tokens, verify_password token rt.token_hash = true →
            rt.user_id ≠ token.payload.sub ∨ rt.revoked_at.isSome = true ∨
              rt.expires_at ≤ now) ∨
         (∀ u ∈ db.users, u.id ≠ token.payload.sub) ∨
         (∀ u ∈ db.users, u.id = token.payload.sub → u.is_active = false)) :
    refresh_access_token s db token now csrf = none := by
  rcases h with h | h | h
  · exact refresh_none_of_rows s db token now csrf h
  · exact refresh_none_of_user s db token now csrf (fun u hu hid => absurd hid (h u hu))
  · exact refresh_none_of_user s db token now csrf h

/-- Claim C5 witness: in a store whose only row matching `jwtW` is revoked,
refresh with `jwtW` is denied. -/
theorem claim_C5_witness :
    refresh_access_token ⟨"k", 30⟩ dbRevW jwtW 100 "c" = none :=
  claim_C5_refresh_denied ⟨"k", 30⟩ dbRevW jwtW 100 "c" (Or.inl (by decide))

/-- Claim C4: a successful `confirm_password_reset` sets the user's credential
hash to the hash of the new secret, marks the reset row used, sets
`revoked_at` on every not-already-revoked refresh-token row of that user
(afterwards every such row is revoked), and any subsequent refresh attempt
for that subject — in particular with any pre-reset refresh token — fails. -/
theorem claim_C4_reset_effects (db : DB) (token new_password : String)
    (now : Int) (salt : Nat) (db' : DB)
    (h : confirm_password_reset db token new_password now salt = (true, db')) :
    ∃ sel val row,
      parse_reset_token token = some (sel, val) ∧
      row ∈ db.reset_tokens ∧ row.token_selector = sel ∧
      verify_password val row.token_hash = true ∧
      (∀ u ∈ db'.users, u.id = row.user_id →
        u.hashed_password = hash_password new_password salt) ∧
      (∀ r ∈ db'.reset_tokens, r.id = row.id → r.used_at = some now) ∧
      (∀ rt ∈ db'.refresh_tokens, rt.user_id = row.user_id →
        rt.revoked_at.isSome = true) ∧
      (∀ (s : Settings) (jwt : Jwt) (now' : Int) (csrf : String),
        jwt.payload.sub = row.user_id →
          refresh_access_token s db' jwt now' csrf = none) := by
  obtain ⟨sel, val, row, user, hp, hrow, hver, hrmem, hrsel, huser, humem, huid, hdb⟩ :=
    confirm_success_inv h
  subst hdb
  have hrev : ∀ rt ∈ (db.refresh_tokens.map fun rt =>
      if rt.user_id = user.id && rt.revoked_at.isNone then
        { rt with revoked_at := some now }
      else rt), rt.user_id = row.user_id → rt.revoked_at.isSome = true := by
    intro rt hrt hruid
    simp only [List.mem_map] at hrt
    obtain ⟨rt0, hrt0, rfl⟩ := hrt
    by_cases hcu : rt0.user_id = user.id
    · cases hrv : rt0.revoked_at with
      | none => simp [hcu, hrv]
      | some t => simp [hcu, hrv]
    · exfalso
      apply hcu
      have hid0 : rt0.user_id = row.user_id := by
        by_cases hcn : rt0.revoked_at.isNone
        · simp only [hcu, hcn] at hruid
          simpa using hruid
        · simp only [hcu, hcn] at hruid
          simpa using hruid
      rw [hid0, ← huid]
  refine ⟨sel, val, row, hp, hrmem, hrsel, hver, ?_, ?_, hrev, ?_⟩
  · intro u hu hid
    simp only [List.mem_map] at hu
    obtain ⟨u0, hu0, rfl⟩ := hu
    by_cases hc : u0.id = user.id
    · simp [hc]
    · exfalso
      apply hc
      have : u0.id = row.user_id := by simpa [hc] using hid
      rw [this, ← huid]
  · intro r hr hid
    simp only [List.mem_map] at hr
    obtain ⟨r0, hr0, rfl⟩ := hr
    by_cases hc : r0.id = row.id
    · simp [hc]
    · exfalso
      apply hc
      simp only [hc, if_false] at hid
  · intro s jwt now' csrf hsub
    apply refresh_none_of_rows
    intro rt hm hv
    by_cases h1 : rt.user_id = jwt.payload.sub
    · exact Or.inr (Or.inl (hrev rt hm (h1.trans hsub)))
    · exact Or.inl h1

/-- Claim C4 witness: after the concrete reset of `userW`'s password, a
refresh attempt with the pre-reset token `jwtW` is denied. -/
theorem claim_C4_witness :
    refresh_access_token ⟨"k", 30⟩ dbW2 jwtW 100 "c" = none := by
  obtain ⟨sel, val, row, hp, hrm, hrs, hv, hupd, hused, hrev, href⟩ :=
    claim_C4_reset_effects dbW "SEL.VAL" "npw" 100 7 dbW2 (by decide)
  have hrow : row = ⟨"pr1", "u1", "SEL", hash_password "VAL" 2, 1000, none⟩ := by
    simpa [dbW] using hrm
  exact href ⟨"k", 30⟩ jwtW 100 "c" (by rw [hrow]; rfl)
